import Mathlib

/-!
Verification development for the proxy-header engine of the
`python-proxy-headers` repository.

The definitions below are a shallow embedding of the Python source:
strings are `List Char`, Python `dict`s are insertion-ordered association
lists whose `set` operation replaces in place (as CPython dicts do), and
the pycurl header-stream parser is the fold of a step function over the
captured header lines, exactly following the loop in
`python_proxy_headers/pycurl_proxy.py` (`ProxyCurl.request`).
-/

/-- Characters of a string literal (embedding of a Python `str`). -/
def str (s : String) : List Char := s.data

/-- ASCII whitespace recognised by Python's `str.strip()`
(space, tab, newline, carriage return, vertical tab, form feed). -/
def isSpaceChar (c : Char) : Bool :=
  c == ' ' || c == '\t' || c == '\n' || c == '\r' ||
  c == Char.ofNat 11 || c == Char.ofNat 12

/-- Embedding of Python `str.strip()`: remove leading and trailing whitespace. -/
def pyStrip (s : List Char) : List Char :=
  ((s.dropWhile isSpaceChar).reverse.dropWhile isSpaceChar).reverse

/-- `strStarts p s` embeds Python `s.startswith(p)`. -/
def strStarts : List Char → List Char → Bool
  | [], _ => true
  | _ :: _, [] => false
  | p :: ps, c :: cs => p == c && strStarts ps cs

/-- `hasChar c s` embeds Python `c in s` for a single character. -/
def hasChar (c : Char) (s : List Char) : Bool :=
  s.any (fun x => x == c)

/-- Worker for `pySplit`: `acc` holds the reversed current chunk and the
`Nat` argument is the number of splits still allowed. -/
def pySplitAux (sep : Char) : List Char → Nat → List Char → List (List Char)
  | acc, _, [] => [acc.reverse]
  | acc, 0, c :: cs => pySplitAux sep (c :: acc) 0 cs
  | acc, Nat.succ m, c :: cs =>
      if c == sep then acc.reverse :: pySplitAux sep [] m cs
      else pySplitAux sep (c :: acc) (Nat.succ m) cs

/-- Embedding of Python `s.split(sep, maxsplit)` for a one-character
separator and a non-negative maxsplit (the source uses
`split(' ', 2)` and `split(':', 1)`). -/
def pySplit (sep : Char) (maxsplit : Nat) (s : List Char) : List (List Char) :=
  pySplitAux sep [] maxsplit s

/-- Numeric value of a digit string (most significant first). -/
def digitsVal (s : List Char) : Nat :=
  s.foldl (fun acc c => acc * 10 + (c.toNat - 48)) 0

/-- All characters are ASCII digits. -/
def allDigits (s : List Char) : Bool := s.all Char.isDigit

/-- Core of `pyInt`, applied to an already-stripped string: an optional
sign followed by one or more digits. -/
def pyIntCore : List Char → Option Int
  | [] => none
  | c :: ds =>
    if c == '-' then
      if !ds.isEmpty && allDigits ds then some (-(digitsVal ds : Int)) else none
    else if c == '+' then
      if !ds.isEmpty && allDigits ds then some ((digitsVal ds : Int)) else none
    else if allDigits (c :: ds) then some ((digitsVal (c :: ds) : Int)) else none

/-- Embedding of Python `int(s)` on ASCII input (surrounding whitespace
allowed, optional sign, decimal digits; underscore separators are not
modelled — none occur in HTTP status fields). `none` is the embedded
`ValueError`. -/
def pyInt (s : List Char) : Option Int := pyIntCore (pyStrip s)

/-- Embedding of Python `str.lower()` on ASCII input. -/
def pyLower (s : List Char) : List Char := s.map Char.toLower

/-- Embedding of Python `d[k] = v` on an insertion-ordered dict: replace
the value at the first matching key in place, otherwise append. -/
def pyDictSet {K V : Type} [DecidableEq K] : List (K × V) → K → V → List (K × V)
  | [], k, v => [(k, v)]
  | (k', v') :: rest, k, v =>
      if k' = k then (k, v) :: rest else (k', v') :: pyDictSet rest k v

/-- Embedding of Python `d.get(k)` / `k in d`: first matching entry. -/
def pyDictGet {K V : Type} [DecidableEq K] : List (K × V) → K → Option V
  | [], _ => none
  | (k', v) :: rest, k => if k' = k then some v else pyDictGet rest k

/-- Embedding of Python `d.update(e)`: set every entry of `e` into `d`
in order. -/
def pyDictUpdate {K V : Type} [DecidableEq K] (d e : List (K × V)) : List (K × V) :=
  e.foldl (fun acc p => pyDictSet acc p.1 p.2) d

/-! ## Header-stream parser (`ProxyCurl.request`, pycurl_proxy.py 219-244) -/

/-- One parsed response section: `(current_status, current_headers)` as
appended to `header_sections` in the source. -/
structure HeaderSection where
  status : Option Int
  headers : List (List Char × List Char)
deriving DecidableEq

/-- The loop state of the header parse: `current_status`,
`current_headers` and the accumulated `header_sections`. -/
structure ParserState where
  currentStatus : Option Int
  currentHeaders : List (List Char × List Char)
  sections : List HeaderSection
deriving DecidableEq

/-- Initial loop state (`current_headers = {}`, `current_status = None`,
`header_sections = []`). -/
def initState : ParserState := ⟨none, [], []⟩

/-- Python truthiness of `current_status`: `None` and `0` are falsy. -/
def statusTruthy : Option Int → Bool
  | none => false
  | some n => decide (n ≠ 0)

/-- Python truthiness of `current_headers or current_status`. -/
def sectionTruthy (st : ParserState) : Bool :=
  !st.currentHeaders.isEmpty || statusTruthy st.currentStatus

/-- `if current_headers or current_status: header_sections.append(...)` —
the guarded append the source performs both on a new status line and
after the loop. -/
def closeSection (st : ParserState) : List HeaderSection :=
  if sectionTruthy st then st.sections ++ [⟨st.currentStatus, st.currentHeaders⟩]
  else st.sections

/-- `key, value = line_str.split(':', 1)` followed by `.strip()` on both
sides. -/
def headerKeyVal (lineStr : List Char) : List Char × List Char :=
  let parts := pySplit ':' 1 lineStr
  (pyStrip (parts.headD []), pyStrip (parts.getD 1 []))

/-- One iteration of the header-line loop of `ProxyCurl.request`:
strip the line; on an `HTTP/` prefix close the current section and start
a new one whose status is `int(parts[1])` when the split has at least two
parts (`None` on a `ValueError`, and the previous `current_status` is
kept when the split is too short, exactly as in the source); on a line
containing `:` set the trimmed key/value into `current_headers`; any
other line leaves the state unchanged. -/
def headerStep (st : ParserState) (line : List Char) : ParserState :=
  let lineStr := pyStrip line
  if strStarts (str ("HTTP/")) lineStr then
    let parts := pySplit ' ' 2 lineStr
    let newStatus := if 2 ≤ parts.length then pyInt (parts.getD 1 []) else st.currentStatus
    { currentStatus := newStatus, currentHeaders := [], sections := closeSection st }
  else if hasChar ':' lineStr then
    let kv := headerKeyVal lineStr
    { st with currentHeaders := pyDictSet st.currentHeaders kv.1 kv.2 }
  else st

/-- The whole parse of a capture buffer: fold the step over the lines and
close the final section ("Don't forget the last section"). -/
def parseHeaderLines (lines : List (List Char)) : List HeaderSection :=
  closeSection (lines.foldl headerStep initState)

/-! ## Response envelope (`ProxyResponse`, pycurl_proxy.py 36-53 and 246-261) -/

/-- Embedding of the `ProxyResponse` dataclass. -/
structure ProxyResponse where
  status_code : Int
  headers : List (List Char × List Char)
  content : List Char
  proxy_headers : List (List Char × List Char)
  proxy_status_code : Option Int
deriving DecidableEq

/-- Assembly of the returned `ProxyResponse` from the parsed sections
(pycurl_proxy.py 246-261): when the request was HTTPS via a proxy and at
least two sections were parsed, the proxy fields come from
`header_sections[0]` and the origin headers from `header_sections[-1]`;
with at least one section only the origin headers are taken from the last
section; with no sections the defaults (`{}`, `{}`, `None`) stand.
`status_code` is always the transport-reported `RESPONSE_CODE`. -/
def assembleResponse (isHttpsViaProxy : Bool) (transportStatus : Int)
    (body : List Char) (sections : List HeaderSection) : ProxyResponse :=
  if isHttpsViaProxy && decide (2 ≤ sections.length) then
    { status_code := transportStatus
      headers := (sections.getLastD ⟨none, []⟩).headers
      content := body
      proxy_headers := (sections.headD ⟨none, []⟩).headers
      proxy_status_code := (sections.headD ⟨none, []⟩).status }
  else if !sections.isEmpty then
    { status_code := transportStatus
      headers := (sections.getLastD ⟨none, []⟩).headers
      content := body
      proxy_headers := []
      proxy_status_code := none }
  else
    { status_code := transportStatus
      headers := []
      content := body
      proxy_headers := []
      proxy_status_code := none }

/-- Embedding of `ProxyResponse.raise_for_status` (pycurl_proxy.py 50-53):
raise carrying the status code iff `status_code >= 400`. The raised
exception is the `Except.error` payload. -/
def raiseForStatus (r : ProxyResponse) : Except Int Unit :=
  if 400 ≤ r.status_code then Except.error r.status_code else Except.ok ()

/-! ## CONNECT header merge (`ProxyCurl.request`, pycurl_proxy.py 166-183) -/

/-- `all_proxy_headers = {**self._proxy_headers}` then
`all_proxy_headers.update(proxy_headers)` guarded by Python truthiness
of the per-request argument (`None` and `{}` both skip the update). The
merge acts on the unpacked copy, never on the instance dict. -/
def mergeProxyHeaders (instanceHeaders : List (List Char × List Char))
    (reqHeaders : Option (List (List Char × List Char))) : List (List Char × List Char) :=
  match reqHeaders with
  | none => instanceHeaders
  | some h => if h.isEmpty then instanceHeaders else pyDictUpdate instanceHeaders h

/-- One `f"{k}: {v}"` line of the CONNECT header block. -/
def formatHeaderLine (kv : List Char × List Char) : List Char :=
  kv.1 ++ (str (": ")) ++ kv.2

/-- The `CURLOPT_PROXYHEADER` list built from the merged headers
(pycurl_proxy.py 176). -/
def proxyHeaderLines (d : List (List Char × List Char)) : List (List Char) :=
  d.map formatHeaderLine

/-- The mutable state of a `ProxyCurl` instance that `request` can see:
`self._proxy_headers` set at construction. -/
structure ProxyCurlState where
  proxyHeadersInst : List (List Char × List Char)
deriving DecidableEq

/-- Effect of one `ProxyCurl.request` call on the instance, restricted to
the proxy-header plumbing: the CONNECT header block is built from
`{**self._proxy_headers}` updated with the per-request headers, and the
source never assigns to or mutates `self._proxy_headers` (the update is
applied to the unpacked copy), so the instance state is returned
unchanged. First component: the header lines handed to
`CURLOPT_PROXYHEADER`; second: the instance state after the call. -/
def requestProxyHeaderEffect (st : ProxyCurlState)
    (reqHeaders : Option (List (List Char × List Char))) :
    List (List Char) × ProxyCurlState :=
  (proxyHeaderLines (mergeProxyHeaders st.proxyHeadersInst reqHeaders), st)

/-! ## Proxy-manager cache (`CipherSuiteProxyHeaderAdapter.proxy_manager_for`,
cloudscraper_proxy.py 47-83) -/

/-- A connection manager as the cache sees it: a creation identity
(distinct physical objects get distinct ids), the proxy headers injected
at creation, and whether it was built by the underlying transport's
default (header-free) path. TLS keyword arguments (`ssl_context`,
`source_address`) only parametrise construction and are elided. -/
structure Manager where
  mid : Nat
  injectedHeaders : List (List Char × List Char)
  defaultPath : Bool
deriving DecidableEq

/-- State of a `CipherSuiteProxyHeaderAdapter`: the custom
`self._proxy_headers`, the `self.proxy_manager` cache dict, and a counter
supplying fresh manager identities. -/
structure AdapterState where
  instHeaders : List (List Char × List Char)
  proxyManager : List (List Char × Manager)
  nextId : Nat
deriving DecidableEq

/-- Drop everything up to and including the first `://`. -/
def afterSchemeSep : List Char → List Char
  | [] => []
  | c :: cs =>
      if strStarts (str ("://")) (c :: cs) then cs.drop 2
      else afterSchemeSep cs

/-- The characters before the first `@`, when one is present. -/
def takeUntilAt : List Char → Option (List Char)
  | [] => none
  | c :: cs =>
      if c == '@' then some []
      else match takeUntilAt cs with
           | some r => some (c :: r)
           | none => none

/-- Modelled from the spec: credential extraction from a proxy URL of the
form `scheme://[user:pass@]host:port` (spec section 6). The parsing itself
lives in the `requests`/`urllib3` dependency, not under src/. -/
def credentialsOf (proxy : List Char) : Option (List Char) :=
  takeUntilAt (afterSchemeSep proxy)

/-- Modelled from the spec: `self.proxy_headers(proxy)` (requests'
`HTTPAdapter.proxy_headers`, not under src/) — the protocol-standard proxy
headers, i.e. a proxy-authentication header derived from credentials
embedded in the proxy URL, empty when no credentials are present (spec
sections 4.3 and 6). The credential encoding is kept abstract as the raw
credential string. -/
def standardProxyHeaders (proxy : List Char) : List (List Char × List Char) :=
  match credentialsOf proxy with
  | some cred => [((str ("Proxy-Authorization")), cred)]
  | none => []

/-- Modelled from the spec: `super().proxy_manager_for(proxy, ...)`
(requests' `HTTPAdapter`, not under src/) — the underlying transport's
default path: return the manager cached for this key if present,
otherwise construct exactly one plain manager (no custom header
injection), insert it into the shared `self.proxy_manager` cache and
return it (spec section 4.3). -/
def superProxyManagerFor (st : AdapterState) (proxy : List Char) :
    Manager × AdapterState :=
  match pyDictGet st.proxyManager proxy with
  | some m => (m, st)
  | none =>
      let m : Manager := ⟨st.nextId, [], true⟩
      (m, { st with proxyManager := pyDictSet st.proxyManager proxy m
                    nextId := st.nextId + 1 })

/-- `proxy.lower().startswith("socks")`. -/
def isSocksProxy (proxy : List Char) : Bool :=
  strStarts (str ("socks")) (pyLower proxy)

/-- The headers injected into a freshly built manager
(cloudscraper_proxy.py 60-65): the standard proxy headers updated with
`self._proxy_headers`, the update guarded by Python truthiness (an empty
instance dict skips it, which changes nothing). -/
def managerInjectedHeaders (st : AdapterState) (proxy : List Char) :
    List (List Char × List Char) :=
  if st.instHeaders.isEmpty then standardProxyHeaders proxy
  else pyDictUpdate (standardProxyHeaders proxy) st.instHeaders

/-- Embedding of `CipherSuiteProxyHeaderAdapter.proxy_manager_for`
(cloudscraper_proxy.py 47-83): return the cached manager when the key is
in `self.proxy_manager`; delegate SOCKS proxies to the superclass default
path; otherwise build the injected headers, construct the manager, cache
it under the proxy key and return it. -/
def proxyManagerFor (st : AdapterState) (proxy : List Char) :
    Manager × AdapterState :=
  match pyDictGet st.proxyManager proxy with
  | some m => (m, st)
  | none =>
      if isSocksProxy proxy then superProxyManagerFor st proxy
      else
        let m : Manager := ⟨st.nextId, managerInjectedHeaders st proxy, false⟩
        (m, { st with proxyManager := pyDictSet st.proxyManager proxy m
                      nextId := st.nextId + 1 })

/-! ## Case-insensitive header lookup (`ModuleTest._check_header`,
test_proxy_headers.py 148-164) -/

/-- Embedding of `ModuleTest._check_header`: walk the header entries in
order and return the value of the first whose lowered name equals the
lowered lookup name, `None` when there is none. -/
def checkHeader : List (List Char × List Char) → List Char → Option (List Char)
  | [], _ => none
  | (k, v) :: rest, headerName =>
      if pyLower k = pyLower headerName then some v else checkHeader rest headerName

/-! ## Lemmas about the embedded dict operations -/

theorem pyDictGet_set_self {K V : Type} [DecidableEq K]
    (d : List (K × V)) (k : K) (v : V) :
    pyDictGet (pyDictSet d k v) k = some v := by
  induction d with
  | nil => simp [pyDictSet, pyDictGet]
  | cons p rest ih =>
    obtain ⟨k', v'⟩ := p
    by_cases h : k' = k
    · simp [pyDictSet, pyDictGet, h]
    · simp [pyDictSet, pyDictGet, h, ih]

theorem pyDictGet_set_other {K V : Type} [DecidableEq K]
    (d : List (K × V)) {k' k : K} (v : V) (h : k' ≠ k) :
    pyDictGet (pyDictSet d k' v) k = pyDictGet d k := by
  induction d with
  | nil => simp [pyDictSet, pyDictGet, h]
  | cons p rest ih =>
    obtain ⟨a, b⟩ := p
    by_cases ha : a = k'
    · subst ha
      simp [pyDictSet, pyDictGet, h]
    · by_cases hk : a = k
      · have hkk : ¬ k = k' := fun hh => h hh.symm
        simp [pyDictSet, pyDictGet, ha, hk, hkk]
      · simp [pyDictSet, pyDictGet, ha, hk, ih]

theorem pyDictGet_eq_none_of_not_mem {K V : Type} [DecidableEq K]
    {d : List (K × V)} {k : K} (h : k ∉ d.map Prod.fst) :
    pyDictGet d k = none := by
  induction d with
  | nil => rfl
  | cons p rest ih =>
    obtain ⟨a, b⟩ := p
    simp only [List.map_cons, List.mem_cons, not_or] at h
    have : a ≠ k := fun he => h.1 he.symm
    simp [pyDictGet, this, ih h.2]

theorem pyDictGet_mem {K V : Type} [DecidableEq K]
    {d : List (K × V)} {k : K} {m : V} (h : pyDictGet d k = some m) :
    (k, m) ∈ d := by
  induction d with
  | nil => simp [pyDictGet] at h
  | cons p rest ih =>
    obtain ⟨a, b⟩ := p
    by_cases ha : a = k
    · subst ha
      simp [pyDictGet] at h
      simp [h]
    · simp only [pyDictGet, if_neg ha] at h
      exact List.mem_cons_of_mem _ (ih h)

theorem pyDictSet_eq_append {K V : Type} [DecidableEq K]
    {d : List (K × V)} {k : K} (v : V) (h : pyDictGet d k = none) :
    pyDictSet d k v = d ++ [(k, v)] := by
  induction d with
  | nil => rfl
  | cons p rest ih =>
    obtain ⟨a, b⟩ := p
    by_cases ha : a = k
    · simp [pyDictGet, ha] at h
    · simp only [pyDictGet, if_neg ha] at h
      simp [pyDictSet, ha, ih h]

theorem pyDictSet_length {K V : Type} [DecidableEq K]
    {d : List (K × V)} {k : K} {w : V} (v : V) (h : pyDictGet d k = some w) :
    (pyDictSet d k v).length = d.length := by
  induction d with
  | nil => simp [pyDictGet] at h
  | cons p rest ih =>
    obtain ⟨a, b⟩ := p
    by_cases ha : a = k
    · simp [pyDictSet, ha]
    · simp only [pyDictGet, if_neg ha] at h
      simp [pyDictSet, ha, ih h]

theorem pyDictUpdate_nil {K V : Type} [DecidableEq K] (d : List (K × V)) :
    pyDictUpdate d [] = d := rfl

theorem pyDictUpdate_cons {K V : Type} [DecidableEq K]
    (d : List (K × V)) (k : K) (v : V) (t : List (K × V)) :
    pyDictUpdate d ((k, v) :: t) = pyDictUpdate (pyDictSet d k v) t := rfl

theorem pyDictGet_update_of_none {K V : Type} [DecidableEq K]
    {e : List (K × V)} {k : K} (d : List (K × V)) (h : pyDictGet e k = none) :
    pyDictGet (pyDictUpdate d e) k = pyDictGet d k := by
  induction e generalizing d with
  | nil => rfl
  | cons p t ih =>
    obtain ⟨k2, v2⟩ := p
    by_cases h2 : k2 = k
    · simp [pyDictGet, h2] at h
    · simp only [pyDictGet, if_neg h2] at h
      rw [pyDictUpdate_cons, ih _ h, pyDictGet_set_other _ _ h2]

theorem pyDictGet_update_of_some {K V : Type} [DecidableEq K]
    {e : List (K × V)} {k : K} {v : V} (d : List (K × V))
    (hnd : (e.map Prod.fst).Nodup) (h : pyDictGet e k = some v) :
    pyDictGet (pyDictUpdate d e) k = some v := by
  induction e generalizing d with
  | nil => simp [pyDictGet] at h
  | cons p t ih =>
    obtain ⟨k2, v2⟩ := p
    simp only [List.map_cons, List.nodup_cons] at hnd
    by_cases h2 : k2 = k
    · subst h2
      simp [pyDictGet] at h
      subst h
      have ht : pyDictGet t k2 = none := pyDictGet_eq_none_of_not_mem hnd.1
      rw [pyDictUpdate_cons, pyDictGet_update_of_none _ ht, pyDictGet_set_self]
    · simp only [pyDictGet, if_neg h2] at h
      rw [pyDictUpdate_cons]
      exact ih _ hnd.2 h

/-! ## Lemmas about the proxy-manager cache -/

/-- Well-formedness of the adapter state: every cached manager's identity
is below the fresh counter, and cached identities are pairwise distinct
(distinct identities mean distinct physical manager objects). -/
def cacheInv (st : AdapterState) : Prop :=
  (∀ p ∈ st.proxyManager, p.2.mid < st.nextId) ∧
  (st.proxyManager.map (fun p => p.2.mid)).Nodup

/-- Only SOCKS-keyed cache entries built on the default path: every
manager cached under a SOCKS-scheme key carries no injected headers. -/
def socksInv (st : AdapterState) : Prop :=
  ∀ p ∈ st.proxyManager, isSocksProxy p.1 = true →
    p.2.injectedHeaders = [] ∧ p.2.defaultPath = true

theorem mid_mem_of_get {d : List (List Char × Manager)} {k : List Char}
    {m : Manager} (h : pyDictGet d k = some m) :
    m.mid ∈ d.map (fun p => p.2.mid) :=
  List.mem_map.mpr ⟨(k, m), pyDictGet_mem h, rfl⟩

theorem get_distinct_mid {d : List (List Char × Manager)} {u v : List Char}
    {m1 m2 : Manager} (huv : u ≠ v)
    (h1 : pyDictGet d u = some m1) (h2 : pyDictGet d v = some m2)
    (hnd : (d.map (fun p => p.2.mid)).Nodup) : m1.mid ≠ m2.mid := by
  induction d with
  | nil => simp [pyDictGet] at h1
  | cons p rest ih =>
    obtain ⟨a, m⟩ := p
    simp only [List.map_cons, List.nodup_cons] at hnd
    by_cases hau : a = u
    · subst hau
      simp only [pyDictGet, if_pos rfl] at h1
      have hav : a ≠ v := fun hh => huv (hh ▸ rfl)
      simp only [pyDictGet, if_neg hav] at h2
      have : m2.mid ∈ rest.map (fun p => p.2.mid) := mid_mem_of_get h2
      cases h1
      exact fun he => hnd.1 (he ▸ this)
    · by_cases hav : a = v
      · subst hav
        simp only [pyDictGet, if_pos rfl] at h2
        simp only [pyDictGet, if_neg hau] at h1
        have : m1.mid ∈ rest.map (fun p => p.2.mid) := mid_mem_of_get h1
        cases h2
        exact fun he => hnd.1 (he ▸ this)
      · simp only [pyDictGet, if_neg hau] at h1
        simp only [pyDictGet, if_neg hav] at h2
        exact ih h1 h2 hnd.2

theorem proxyManagerFor_cached {st : AdapterState} {u : List Char} {m : Manager}
    (h : pyDictGet st.proxyManager u = some m) :
    proxyManagerFor st u = (m, st) := by
  simp [proxyManagerFor, h]

theorem proxyManagerFor_fresh {st : AdapterState} {u : List Char}
    (h : pyDictGet st.proxyManager u = none) :
    (proxyManagerFor st u).1.mid = st.nextId ∧
    (proxyManagerFor st u).2.proxyManager
      = pyDictSet st.proxyManager u (proxyManagerFor st u).1 ∧
    (proxyManagerFor st u).2.nextId = st.nextId + 1 ∧
    (proxyManagerFor st u).2.instHeaders = st.instHeaders := by
  by_cases hs : isSocksProxy u = true
  · simp [proxyManagerFor, superProxyManagerFor, h, hs]
  · simp [proxyManagerFor, superProxyManagerFor, h, hs]

/-- Every call leaves the key it was asked about bound, in the cache of
the state it returns, to the very manager it returned. -/
theorem proxyManagerFor_caches (st : AdapterState) (u : List Char) :
    pyDictGet (proxyManagerFor st u).2.proxyManager u
      = some (proxyManagerFor st u).1 := by
  cases hget : pyDictGet st.proxyManager u with
  | some m => rw [proxyManagerFor_cached hget]; exact hget
  | none =>
    rw [(proxyManagerFor_fresh hget).2.1]
    exact pyDictGet_set_self _ _ _

theorem cacheInv_preserved {st : AdapterState} (hinv : cacheInv st)
    (u : List Char) : cacheInv (proxyManagerFor st u).2 := by
  cases hget : pyDictGet st.proxyManager u with
  | some m => rw [proxyManagerFor_cached hget]; exact hinv
  | none =>
    obtain ⟨hmid, hpm, hnext, -⟩ := proxyManagerFor_fresh hget
    constructor
    · intro p hp
      rw [hpm, pyDictSet_eq_append _ hget] at hp
      rw [hnext]
      rcases List.mem_append.mp hp with hold | hnew
      · exact Nat.lt_succ_of_lt (hinv.1 p hold)
      · simp only [List.mem_singleton] at hnew
        subst hnew
        simp [hmid]
    · rw [hpm, pyDictSet_eq_append _ hget, List.map_append]
      refine List.Nodup.append hinv.2 (by simp) ?_
      intro x hx hx2
      simp only [List.map_cons, List.map_nil, List.mem_singleton] at hx2
      subst hx2
      have := hinv.2
      rcases List.mem_map.mp hx with ⟨p, hp, hpx⟩
      have hlt := hinv.1 p hp
      rw [hpx, hmid] at hlt
      exact absurd hlt (lt_irrefl _)

theorem proxyManagerFor_socks_fresh {st : AdapterState} {u : List Char}
    (hget : pyDictGet st.proxyManager u = none) (hs : isSocksProxy u = true) :
    proxyManagerFor st u =
      (⟨st.nextId, [], true⟩,
       { st with proxyManager := pyDictSet st.proxyManager u ⟨st.nextId, [], true⟩
                 nextId := st.nextId + 1 }) := by
  simp [proxyManagerFor, superProxyManagerFor, hget, hs]

theorem proxyManagerFor_plain_fresh {st : AdapterState} {u : List Char}
    (hget : pyDictGet st.proxyManager u = none) (hs : isSocksProxy u = false) :
    proxyManagerFor st u =
      (⟨st.nextId, managerInjectedHeaders st u, false⟩,
       { st with proxyManager :=
                   pyDictSet st.proxyManager u ⟨st.nextId, managerInjectedHeaders st u, false⟩
                 nextId := st.nextId + 1 }) := by
  simp [proxyManagerFor, hget, hs]

theorem socksInv_preserved {st : AdapterState} (hinv : socksInv st)
    (u : List Char) : socksInv (proxyManagerFor st u).2 := by
  cases hget : pyDictGet st.proxyManager u with
  | some m => rw [proxyManagerFor_cached hget]; exact hinv
  | none =>
    cases hs : isSocksProxy u with
    | true =>
      rw [proxyManagerFor_socks_fresh hget hs]
      intro p hp
      rw [pyDictSet_eq_append _ hget] at hp
      rcases List.mem_append.mp hp with hold | hnew
      · exact hinv p hold
      · simp only [List.mem_singleton] at hnew
        subst hnew
        intro
        exact ⟨rfl, rfl⟩
    | false =>
      rw [proxyManagerFor_plain_fresh hget hs]
      intro p hp
      rw [pyDictSet_eq_append _ hget] at hp
      rcases List.mem_append.mp hp with hold | hnew
      · exact hinv p hold
      · simp only [List.mem_singleton] at hnew
        subst hnew
        intro hcontra
        rw [hs] at hcontra
        cases hcontra

/-! ## Claim theorems -/

/-- C1: for every instance-level header set H1 and per-request header set
H2, the merged CONNECT header mapping (`ProxyCurl.request`,
pycurl_proxy.py 169-172) maps every name occurring in H2 to its H2 value
and every name occurring only in H1 to its unchanged H1 value: per-request
precedence on collision, non-colliding instance headers survive. -/
theorem connect_merge_precedence :
    ∀ (h1 h2 : List (List Char × List Char)) (k : List Char),
    (h2.map Prod.fst).Nodup →
    (∀ v, pyDictGet h2 k = some v →
       pyDictGet (mergeProxyHeaders h1 (some h2)) k = some v) ∧
    (pyDictGet h2 k = none →
       pyDictGet (mergeProxyHeaders h1 (some h2)) k = pyDictGet h1 k) := by
  intro h1 h2 k hnd
  cases h2 with
  | nil =>
    constructor
    · intro v hv
      simp [pyDictGet] at hv
    · intro
      rfl
  | cons p t =>
    constructor
    · intro v hv
      simpa [mergeProxyHeaders] using pyDictGet_update_of_some h1 hnd hv
    · intro hnone
      simpa [mergeProxyHeaders] using pyDictGet_update_of_none h1 hnone

/-- Witness for C1 at concrete header sets: the colliding name takes the
per-request value. -/
theorem connect_merge_precedence_wit :
    pyDictGet
      (mergeProxyHeaders
        [((str ("X-ProxyMesh-Country")), str ("US")), ((str ("X-Keep")), str ("1"))]
        (some [((str ("X-ProxyMesh-Country")), str ("JP"))]))
      (str ("X-ProxyMesh-Country")) = some (str ("JP")) :=
  (connect_merge_precedence _ _ _ (by decide)).1 _ (by decide)

/-- C2: the capture buffer made of a CONNECT status line, one header
line, a blank line, an origin status line and two header lines parses to
exactly 2 sections; section 0 has status 200; the last section holds both
header entries; and removing the blank line leaves the parse unchanged
(the blank line causes no section boundary by itself). -/
theorem two_block_capture_parse :
    (parseHeaderLines
       [str ("HTTP/1.1 200 Connection established"), str ("X-Proxy-Agent: squid"),
        str (""), str ("HTTP/1.1 200 OK"), str ("Content-Type: text/html"),
        str ("Server: nginx")]).length = 2 ∧
    ((parseHeaderLines
       [str ("HTTP/1.1 200 Connection established"), str ("X-Proxy-Agent: squid"),
        str (""), str ("HTTP/1.1 200 OK"), str ("Content-Type: text/html"),
        str ("Server: nginx")]).headD ⟨none, []⟩).status = some 200 ∧
    ((parseHeaderLines
       [str ("HTTP/1.1 200 Connection established"), str ("X-Proxy-Agent: squid"),
        str (""), str ("HTTP/1.1 200 OK"), str ("Content-Type: text/html"),
        str ("Server: nginx")]).getLastD ⟨none, []⟩).headers
      = [((str ("Content-Type")), str ("text/html")), ((str ("Server")), str ("nginx"))] ∧
    parseHeaderLines
       [str ("HTTP/1.1 200 Connection established"), str ("X-Proxy-Agent: squid"),
        str (""), str ("HTTP/1.1 200 OK"), str ("Content-Type: text/html"),
        str ("Server: nginx")]
      = parseHeaderLines
       [str ("HTTP/1.1 200 Connection established"), str ("X-Proxy-Agent: squid"),
        str ("HTTP/1.1 200 OK"), str ("Content-Type: text/html"),
        str ("Server: nginx")] := by decide

/-- C3 counterexample: two header lines with the same name inside one
section do not accumulate as separate entries — the parse of this
three-line buffer yields a single section whose header set has exactly
one `Set-Cookie` entry, holding the second value. -/
theorem duplicate_header_cex :
    parseHeaderLines
        [str ("HTTP/1.1 200 OK"), str ("Set-Cookie: a=1"), str ("Set-Cookie: b=2")]
      = [⟨some 200, [((str ("Set-Cookie")), str ("b=2"))]⟩] ∧
    ((parseHeaderLines
        [str ("HTTP/1.1 200 OK"), str ("Set-Cookie: a=1"), str ("Set-Cookie: b=2")]).headD
        ⟨none, []⟩).headers.length ≠ 2 := by decide

/-- C3 (amended): when the same trimmed header name appears on two header
lines within one section, the parser keeps a single entry for that name —
the second occurrence overwrites the first in place (the header count does
not grow), and the recorded value is the later one; sections and status
are untouched. -/
theorem duplicate_header_last_wins :
    ∀ (st : ParserState) (l1 l2 : List Char),
    strStarts (str ("HTTP/")) (pyStrip l1) = false →
    hasChar ':' (pyStrip l1) = true →
    strStarts (str ("HTTP/")) (pyStrip l2) = false →
    hasChar ':' (pyStrip l2) = true →
    (headerKeyVal (pyStrip l1)).1 = (headerKeyVal (pyStrip l2)).1 →
    pyDictGet (headerStep (headerStep st l1) l2).currentHeaders
        (headerKeyVal (pyStrip l2)).1 = some (headerKeyVal (pyStrip l2)).2 ∧
    (headerStep (headerStep st l1) l2).currentHeaders.length
        = (headerStep st l1).currentHeaders.length ∧
    (headerStep (headerStep st l1) l2).sections = st.sections ∧
    (headerStep (headerStep st l1) l2).currentStatus = st.currentStatus := by
  intro st l1 l2 h1 h1c h2 h2c hk
  have e1 : headerStep st l1 = ⟨st.currentStatus, pyDictSet st.currentHeaders (headerKeyVal (pyStrip l1)).1 (headerKeyVal (pyStrip l1)).2, st.sections⟩ := by
    simp [headerStep, h1, h1c]
  have e2 : ∀ st' : ParserState, headerStep st' l2 = ⟨st'.currentStatus, pyDictSet st'.currentHeaders (headerKeyVal (pyStrip l2)).1 (headerKeyVal (pyStrip l2)).2, st'.sections⟩ := by
    intro st'
    simp [headerStep, h2, h2c]
  rw [e1, e2]
  dsimp only
  refine ⟨pyDictGet_set_self _ _ _, ?_, rfl, rfl⟩
  have hgot : pyDictGet
      (pyDictSet st.currentHeaders (headerKeyVal (pyStrip l1)).1 (headerKeyVal (pyStrip l1)).2)
      (headerKeyVal (pyStrip l2)).1 = some (headerKeyVal (pyStrip l1)).2 := by
    rw [← hk]
    exact pyDictGet_set_self _ _ _
  exact pyDictSet_length _ hgot

/-- Witness for C3 (amended) at two concrete `Set-Cookie` lines. -/
theorem duplicate_header_last_wins_wit :
    pyDictGet
        (headerStep (headerStep initState (str ("Set-Cookie: a=1")))
          (str ("Set-Cookie: b=2"))).currentHeaders
        (headerKeyVal (pyStrip (str ("Set-Cookie: b=2")))).1
      = some (headerKeyVal (pyStrip (str ("Set-Cookie: b=2")))).2 :=
  (duplicate_header_last_wins initState _ _ (by decide) (by decide) (by decide)
    (by decide) (by decide)).1

/-- C4: a line matching the status-line prefix whose status-code field is
not a valid integer starts a section recorded with status `None`: the
step closes the previous section as usual, resets the headers, sets the
current status to `None`, and the parse of any surrounding buffer simply
continues through the line (the fold is total — no failure). -/
theorem malformed_status_recovery :
    ∀ (st : ParserState) (line : List Char),
    strStarts (str ("HTTP/")) (pyStrip line) = true →
    2 ≤ (pySplit ' ' 2 (pyStrip line)).length →
    pyInt ((pySplit ' ' 2 (pyStrip line)).getD 1 []) = none →
    headerStep st line = ⟨none, [], closeSection st⟩ ∧
    (∀ pre post : List (List Char),
       parseHeaderLines (pre ++ line :: post)
         = closeSection
             (post.foldl headerStep (headerStep (pre.foldl headerStep initState) line))) := by
  intro st line h1 h2 h3
  constructor
  · simp [headerStep, h1, h2]
    simpa using h3
  · intro pre post
    simp [parseHeaderLines, List.foldl_append]

/-- Witness for C4 at a concrete malformed status line. -/
theorem malformed_status_recovery_wit :
    headerStep initState (str ("HTTP/1.1 ABC Bad")) = ⟨none, [], closeSection initState⟩ :=
  (malformed_status_recovery initState _ (by decide) (by decide) (by decide)).1

/-- C5: for an HTTPS-via-proxy request whose parsed exchange has at least
2 sections, the assembled envelope takes proxy status and proxy headers
from section 0 and origin headers from the last section; with 0 sections
the proxy status is `None` and the proxy headers are empty. -/
theorem envelope_proxy_origin_sections :
    ∀ (ts : Int) (body : List Char) (sections : List HeaderSection),
    (2 ≤ sections.length →
       (assembleResponse true ts body sections).proxy_status_code
           = (sections.headD ⟨none, []⟩).status ∧
       (assembleResponse true ts body sections).proxy_headers
           = (sections.headD ⟨none, []⟩).headers ∧
       (assembleResponse true ts body sections).headers
           = (sections.getLastD ⟨none, []⟩).headers) ∧
    (∀ hv : Bool, sections = [] →
       (assembleResponse hv ts body sections).proxy_status_code = none ∧
       (assembleResponse hv ts body sections).proxy_headers = []) := by
  intro ts body sections
  constructor
  · intro h
    simp [assembleResponse, h]
  · intro hv h
    subst h
    cases hv <;> simp [assembleResponse]

/-- Witness for C5 at a concrete two-section exchange. -/
theorem envelope_proxy_origin_sections_wit :
    (assembleResponse true 200 []
        [(⟨some 207, [((str ("Via")), str ("p"))]⟩ : HeaderSection),
         ⟨some 200, []⟩]).proxy_status_code = some 207 := by
  have h := ((envelope_proxy_origin_sections 200 []
    [⟨some 207, [((str ("Via")), str ("p"))]⟩, ⟨some 200, []⟩]).1 (by decide)).1
  simpa using h

/-- C6: under the cache invariant, a call leaves the requested proxy URL
bound to the returned manager; an immediately repeated call with the same
URL returns the identical manager and changes nothing (so at most one
manager is ever constructed per key); a call with a different URL leaves
the binding intact; and the manager returned for a different URL has a
different identity. -/
theorem proxy_manager_cache_identity :
    ∀ (st : AdapterState) (u v : List Char), cacheInv st →
    pyDictGet (proxyManagerFor st u).2.proxyManager u
        = some (proxyManagerFor st u).1 ∧
    proxyManagerFor (proxyManagerFor st u).2 u
        = ((proxyManagerFor st u).1, (proxyManagerFor st u).2) ∧
    (∀ w, w ≠ u →
       pyDictGet (proxyManagerFor (proxyManagerFor st u).2 w).2.proxyManager u
         = some (proxyManagerFor st u).1) ∧
    (u ≠ v →
       (proxyManagerFor (proxyManagerFor st u).2 v).1.mid
         ≠ (proxyManagerFor st u).1.mid) := by
  intro st u v hinv
  have hc := proxyManagerFor_caches st u
  have hinv1 := cacheInv_preserved hinv u
  refine ⟨hc, proxyManagerFor_cached hc, ?_, ?_⟩
  · intro w hw
    cases hgw : pyDictGet (proxyManagerFor st u).2.proxyManager w with
    | some mw => rw [proxyManagerFor_cached hgw]; exact hc
    | none =>
      rw [(proxyManagerFor_fresh hgw).2.1, pyDictGet_set_other _ _ hw]
      exact hc
  · intro huv
    cases hgv : pyDictGet (proxyManagerFor st u).2.proxyManager v with
    | some mv =>
      rw [proxyManagerFor_cached hgv]
      exact get_distinct_mid (Ne.symm huv) hgv hc hinv1.2
    | none =>
      rw [(proxyManagerFor_fresh hgv).1]
      have hm1 : (u, (proxyManagerFor st u).1) ∈ (proxyManagerFor st u).2.proxyManager :=
        pyDictGet_mem hc
      exact (Nat.ne_of_lt (hinv1.1 _ hm1)).symm

/-- Witness for C6: from the empty adapter state, the second call with
the same proxy URL returns the identical manager and state. -/
theorem proxy_manager_cache_identity_wit :
    proxyManagerFor
        (proxyManagerFor (⟨[], [], 0⟩ : AdapterState) (str ("http://proxy.example:8080"))).2
        (str ("http://proxy.example:8080"))
      = ((proxyManagerFor (⟨[], [], 0⟩ : AdapterState) (str ("http://proxy.example:8080"))).1,
         (proxyManagerFor (⟨[], [], 0⟩ : AdapterState) (str ("http://proxy.example:8080"))).2) :=
  (proxy_manager_cache_identity ⟨[], [], 0⟩ _ (str ("http://other.example:1"))
    (by simp [cacheInv])).2.1

/-- C7: a SOCKS-scheme proxy URL requested while custom proxy headers are
configured is not an error: the returned manager comes from the
transport's default path with no injected headers (the custom headers are
silently dropped), and the SOCKS invariant is preserved. -/
theorem socks_headers_dropped :
    ∀ (st : AdapterState) (u : List Char), socksInv st →
    isSocksProxy u = true → st.instHeaders ≠ [] →
    (proxyManagerFor st u).1.injectedHeaders = [] ∧
    (proxyManagerFor st u).1.defaultPath = true ∧
    socksInv (proxyManagerFor st u).2 := by
  intro st u hinv hs hne
  have hpres := socksInv_preserved hinv u
  cases hget : pyDictGet st.proxyManager u with
  | some m =>
    have hm := hinv _ (pyDictGet_mem hget) hs
    rw [proxyManagerFor_cached hget]
    rw [proxyManagerFor_cached hget] at hpres
    exact ⟨hm.1, hm.2, hpres⟩
  | none =>
    rw [proxyManagerFor_socks_fresh hget hs]
    rw [proxyManagerFor_socks_fresh hget hs] at hpres
    exact ⟨rfl, rfl, hpres⟩

/-- Witness for C7 at a concrete SOCKS URL with a configured header. -/
theorem socks_headers_dropped_wit :
    (proxyManagerFor (⟨[((str ("X-T")), str ("v"))], [], 0⟩ : AdapterState)
        (str ("socks5://h:1"))).1.injectedHeaders = [] :=
  (socks_headers_dropped ⟨[((str ("X-T")), str ("v"))], [], 0⟩ _
    (by simp [socksInv]) (by decide) (by decide)).1

/-- C8: the caller-invoked check raises the status error carrying the
status code iff the origin status is at least 400, and assembling the
envelope never raises — it returns an envelope recording the transport
status for every status value. -/
theorem raise_for_status_check :
    ∀ (r : ProxyResponse) (hv : Bool) (ts : Int) (body : List Char)
      (sections : List HeaderSection),
    (raiseForStatus r = Except.error r.status_code ↔ 400 ≤ r.status_code) ∧
    (raiseForStatus r = Except.ok () ↔ r.status_code < 400) ∧
    (assembleResponse hv ts body sections).status_code = ts := by
  intro r hv ts body sections
  refine ⟨⟨?_, ?_⟩, ⟨?_, ?_⟩, ?_⟩
  · intro he
    by_contra hlt
    simp [raiseForStatus, hlt] at he
  · intro h
    simp [raiseForStatus, h]
  · intro he
    by_contra hge
    have h4 : 400 ≤ r.status_code := by omega
    simp [raiseForStatus, h4] at he
  · intro h
    have h4 : ¬ 400 ≤ r.status_code := by omega
    simp [raiseForStatus, h4]
  · simp only [assembleResponse]
    split_ifs <;> rfl

/-- Witness for C8 at a 404 envelope. -/
theorem raise_for_status_check_wit :
    raiseForStatus ⟨404, [], [], [], none⟩ = Except.error 404 :=
  (raise_for_status_check ⟨404, [], [], [], none⟩ true 0 [] []).1.mpr (by decide)

/-- C9: header lookup is case-insensitive and returns the value of the
first entry whose name matches case-insensitively; in particular the
entry `X-Proxymesh-Ip: 1.2.3.4` is found by a lookup for
`x-proxymesh-ip`. -/
theorem header_lookup_case_insensitive :
    (∀ (hs : List (List Char × List Char)) (n1 n2 : List Char),
       pyLower n1 = pyLower n2 → checkHeader hs n1 = checkHeader hs n2) ∧
    (∀ (pre post : List (List Char × List Char)) (k v n : List Char),
       (∀ p ∈ pre, pyLower p.1 ≠ pyLower n) → pyLower k = pyLower n →
       checkHeader (pre ++ (k, v) :: post) n = some v) ∧
    checkHeader [((str ("X-Proxymesh-Ip")), str ("1.2.3.4"))] (str ("x-proxymesh-ip"))
      = some (str ("1.2.3.4")) := by
  refine ⟨?_, ?_, by decide⟩
  · intro hs n1 n2 h
    induction hs with
    | nil => rfl
    | cons p rest ih =>
      obtain ⟨k, v⟩ := p
      simp only [checkHeader, h, ih]
  · intro pre post k v n hpre hk
    induction pre with
    | nil => simp [checkHeader, hk]
    | cons p rest ih =>
      obtain ⟨a, b⟩ := p
      have ha : pyLower a ≠ pyLower n := hpre (a, b) (by simp)
      simp only [List.cons_append, checkHeader, if_neg ha]
      exact ih fun q hq => hpre q (List.mem_cons_of_mem _ hq)

/-- Witness for C9: two casings of the same name give the same lookup. -/
theorem header_lookup_case_insensitive_wit :
    checkHeader [((str ("X-Proxymesh-Ip")), str ("1.2.3.4"))] (str ("x-PROXYMESH-ip"))
      = checkHeader [((str ("X-Proxymesh-Ip")), str ("1.2.3.4"))] (str ("x-proxymesh-ip")) :=
  header_lookup_case_insensitive.1 _ _ _ (by decide)

/-- C10: one `request` call leaves the instance-level proxy header set
unchanged (the merge works on an unpacked copy), so a later request
without per-request headers sends exactly the headers given at
construction. -/
theorem instance_headers_unchanged :
    ∀ (st : ProxyCurlState) (req : Option (List (List Char × List Char))),
    (requestProxyHeaderEffect st req).2 = st ∧
    (requestProxyHeaderEffect (requestProxyHeaderEffect st req).2 none).1
      = proxyHeaderLines st.proxyHeadersInst :=
  fun _ _ => ⟨rfl, rfl⟩
